import Mathlib

set_option maxRecDepth 40000

/-!
Verification of the retell-agent German date/slot extraction and booking
engine.

Shallow embedding of the core computations of the retell-agent backend
(rule-based German date extraction, availability, quote and booking-commit
logic) together with theorems settling the frozen specification claims.

The repository contains several near-identical server variants.  Definitions
below carry a suffix naming the variant they embed:
* `…002`   — `src/unnamed/part_002` (identical core to `src/src/server.js`),
* no suffix / `…Smart` — the grouped engine in `src/server.js`
  (`parseDateSmart`, `computeCheckAvailability`, `validateBookingRequest`),
* `…005`   — `src/unnamed/part_005`.

Dates are modelled by their Gregorian components (`Ymd`) and, where the source
manipulates JavaScript `Date` instants, by rata-die day numbers
(`daysFromCivil` / `civilFromDays`, the standard civil-calendar conversion;
day 1 = 0001-01-01, and `rd % 7` reproduces JavaScript's `getDay`
convention 0 = Sunday).  Machine integers are `Nat`/`Int`; none of the
computations involved approach overflow in the source.
-/

/-- A Gregorian calendar date given by components, as produced and consumed by
the JavaScript code (`getFullYear`/`getMonth`+1/`getDate`). -/
structure Ymd where
  y : Nat
  m : Nat
  d : Nat
deriving DecidableEq, Repr

/-- Gregorian leap-year test (JS `Date.UTC` round-trip semantics). -/
def isLeap (y : Nat) : Bool := (y % 4 = 0 && y % 100 ≠ 0) || y % 400 = 0

/-- Number of days of month `m` of year `y` (for `1 ≤ m ≤ 12`). -/
def daysInMonth (y m : Nat) : Nat :=
  if m = 2 then (if isLeap y then 29 else 28)
  else if m = 4 || m = 6 || m = 9 || m = 11 then 30
  else 31

/-- Embedding of `utils.isValidYmd` of `src/server.js` (and `isValidYmd` of part_004):
bounds checks `1900 ≤ y ≤ 2100`, `1 ≤ m ≤ 12`, `1 ≤ d ≤ 31` followed by a
`Date.UTC` construction round-trip, which succeeds exactly when `d` does not
exceed the length of month `m`. -/
def isValidYmd (y m d : Nat) : Bool :=
  1900 ≤ y && y ≤ 2100 && 1 ≤ m && m ≤ 12 && 1 ≤ d && d ≤ 31 &&
    d ≤ daysInMonth y m

/-- Rata-die day number of a civil date (day 1 = 0001-01-01); the standard
days-from-civil algorithm, valid for `y ≥ 1`.  This is the day count that
underlies every JavaScript `Date` instant appearing in the source. -/
def daysFromCivil (y m d : Nat) : Nat :=
  let y' := if m ≤ 2 then y - 1 else y
  let era := y' / 400
  let yoe := y' % 400
  let doy := (153 * (if 2 < m then m - 3 else m + 9) + 2) / 5 + d - 1
  let doe := yoe * 365 + yoe / 4 - yoe / 100 + doy
  era * 146097 + doe + 1 - 306

/-- Rata-die day number of a `Ymd`. -/
def rdOf (t : Ymd) : Nat := daysFromCivil t.y t.m t.d

/-- Civil date of a rata-die day number (standard civil-from-days
algorithm), used wherever the source formats a `Date` instant back into
components (`getFullYear`/`getMonth`/`getDate`). -/
def civilFromDays (rd : Nat) : Ymd :=
  let z := rd + 305
  let era := z / 146097
  let doe := z % 146097
  let yoe := (doe - doe / 1460 + doe / 36524 - doe / 146096) / 365
  let y := yoe + era * 400
  let doy := doe - (365 * yoe + yoe / 4 - yoe / 100)
  let mp := (5 * doy + 2) / 153
  let d := doy - (153 * mp + 2) / 5 + 1
  let m := if mp < 10 then mp + 3 else mp - 9
  ⟨if m ≤ 2 then y + 1 else y, m, d⟩

/-- Embedding of `pad2` of the source: decimal string left-padded with `"0"` to width 2. -/
def pad2 (n : Nat) : String := if n < 10 then "0" ++ toString n else toString n

/-- Embedding of `utils.ymd` of `src/server.js` (and `ymd` of part_004/part_005) on the
civil components: `` `${y}-${pad2 m}-${pad2 d}` `` (the year is not padded). -/
def ymdStr (t : Ymd) : String := toString t.y ++ "-" ++ pad2 t.m ++ "-" ++ pad2 t.d

/-- Render the civil date of a rata-die day number (`utils.ymd` applied to a
`Date` instant). -/
def ymdOfRd (rd : Nat) : String := ymdStr (civilFromDays rd)

/-- The delta computed by `utils.nextWeekday`: `(targetWd - wd + 7) % 7`,
mapped to `7` when zero (written with the `+ 7` first so that the `Nat`
subtraction never truncates; for `wd w < 7` this equals the JS expression). -/
def wdDelta (wd w : Nat) : Nat :=
  let t := (w + 7 - wd) % 7
  if t = 0 then 7 else t

/-- Embedding of `utils.nextWeekday` of `src/server.js` (and part_004/part_005) on rata-die
day numbers: `from.getDay()` is `rd % 7` (0 = Sunday). -/
def nextWeekdayRd (rd : Nat) (w : Nat) : Nat := rd + wdDelta (rd % 7) w

/-! ## Character and string primitives

The source operates on JavaScript strings; here strings are processed as
`List Char`.  Unicode handling is embedded for exactly the characters that
occur in the lookup tables and claim inputs (ASCII plus `ä ö ü ß` and their
upper-case forms): JS `toLowerCase` lowercases them, NFD/NFKD decomposition
followed by stripping of the combining range U+0300–U+036F maps
`ä→a, ö→o, ü→u` and leaves `ß` unchanged. -/

/-- JS `toLowerCase` on a single character (ASCII letters and the German
upper-case umlauts occurring in the inputs). -/
def jsLowerChar (c : Char) : Char :=
  if 'A' ≤ c ∧ c ≤ 'Z' then Char.ofNat (c.toNat + 32)
  else if c = 'Ä' then 'ä' else if c = 'Ö' then 'ö' else if c = 'Ü' then 'ü'
  else c

/-- NFD/NFKD decomposition followed by removal of combining accents
(`replace(/[̀-ͯ]/g, "")`), on the characters occurring here:
the precomposed umlauts lose their diaeresis, `ß` has no decomposition. -/
def stripAccentChar (c : Char) : Char :=
  if c = 'ä' then 'a' else if c = 'ö' then 'o' else if c = 'ü' then 'u' else c

/-- JS `\s` for the whitespace forms occurring in the inputs. -/
def isWsChar (c : Char) : Bool := c = ' ' || c = '\t' || c = '\n' || c = '\r'

/-- JS word character (`\w` = `[A-Za-z0-9_]`); the `\b` boundary assertions of
the source regexes are defined from this class (umlauts are not word
characters in a non-unicode JS regex). -/
def isWordChar (c : Char) : Bool :=
  ('a' ≤ c && c ≤ 'z') || ('A' ≤ c && c ≤ 'Z') || ('0' ≤ c && c ≤ '9') || c = '_'

/-- ASCII decimal digit. -/
def isDigitChar (c : Char) : Bool := '0' ≤ c && c ≤ '9'

/-- ASCII lower-case letter. -/
def isAsciiLower (c : Char) : Bool := 'a' ≤ c && c ≤ 'z'

/-- Character class `[a-zäöüß.]` of the weekday / long-date regexes. -/
def isWordClassChar (c : Char) : Bool :=
  isAsciiLower c || c = 'ä' || c = 'ö' || c = 'ü' || c = 'ß' || c = '.'

/-- Does `pat` occur as a prefix of `l`? -/
def isPrefixList : List Char → List Char → Bool
  | [], _ => true
  | _ :: _, [] => false
  | p :: ps, c :: cs => p = c && isPrefixList ps cs

/-- Does `pat` occur as a substring of `l` (JS `String.prototype.includes`)? -/
def containsSub (pat : List Char) : List Char → Bool
  | [] => isPrefixList pat []
  | c :: cs => isPrefixList pat (c :: cs) || containsSub pat cs

/-- JS `String.prototype.replace` with a global literal pattern: left-to-right,
non-overlapping replacement.  `fuel` bounds the recursion; callers pass the
input length (each step consumes at least one character since the patterns
used are nonempty). -/
def replaceFuel (pat repl : List Char) : Nat → List Char → List Char
  | 0, l => l
  | _ + 1, [] => []
  | fuel + 1, c :: cs =>
    if pat ≠ [] ∧ isPrefixList pat (c :: cs) then
      repl ++ replaceFuel pat repl fuel (List.drop pat.length (c :: cs))
    else
      c :: replaceFuel pat repl fuel cs

/-- Global literal replacement (`s.replace(/pat/g, repl)` for a literal
pattern). -/
def replaceAllL (pat repl l : List Char) : List Char :=
  replaceFuel pat repl l.length l

/-- JS `replace(/\s+/g, " ")`: collapse every maximal whitespace run to a
single space.  `fuel` bounds the recursion (callers pass the input length;
every step consumes at least one character). -/
def collapseWsFuel : Nat → List Char → List Char
  | 0, l => l
  | _ + 1, [] => []
  | fuel + 1, c :: cs =>
    if isWsChar c then ' ' :: collapseWsFuel fuel (cs.dropWhile isWsChar)
    else c :: collapseWsFuel fuel cs

/-- JS `replace(/\s+/g, " ")`. -/
def collapseWs (l : List Char) : List Char := collapseWsFuel l.length l

/-- JS `String.prototype.trim` (on the whitespace forms of `isWsChar`). -/
def trimL (l : List Char) : List Char :=
  ((l.dropWhile isWsChar).reverse.dropWhile isWsChar).reverse

/-- Lexicographic code-unit comparison of two strings, the semantics of the
JS `<` operator on strings (for the basic-plane characters used here,
code-unit order and code-point order agree). -/
def lexLtChars : List Char → List Char → Bool
  | [], [] => false
  | [], _ :: _ => true
  | _ :: _, [] => false
  | a :: as, b :: bs =>
    if a.val < b.val then true else if b.val < a.val then false else lexLtChars as bs

/-- JS string `<` on `String`. -/
def jsStrLt (a b : String) : Bool := lexLtChars a.data b.data

/-- JS `toLowerCase` on a string. -/
def jsToLower (s : List Char) : List Char := s.map jsLowerChar

/-! ## Text normalization

Two distinct normalizers occur in the repository and their difference is
load-bearing for several claims:

* `utils.normalize` of part_002 / `src/src/server.js` lowercases, NFKD-strips
  accents, then applies `ä→ae, ö→oe, ü→ue, ß→ss` — but after the accent strip
  no umlauts remain, so only the `ß→ss` replacement ever fires and
  `frühstück` becomes `fruhstuck`, not `fruehstueck`;
* `utils.normalizeText` of `src/server.js` lowercases, NFD-strips accents,
  collapses whitespace, and then replaces the digraphs `ae→ä, oe→ö, ue→ü`,
  so ASCII-folded input regains umlauts while native-umlaut input loses
  them. -/

/-- Embedding of `utils.normalize` of part_002 / `src/src/server.js`:
`toLowerCase`, NFKD, strip combining accents, `ä→ae`, `ö→oe`, `ü→ue`,
`ß→ss`, collapse whitespace, trim.  (The umlaut replacements are kept for
faithfulness although the preceding accent strip makes them no-ops.) -/
def normalize002L (l : List Char) : List Char :=
  let step1 := (jsToLower l).map stripAccentChar
  let step2 := replaceAllL ['ä'] ['a', 'e'] step1
  let step3 := replaceAllL ['ö'] ['o', 'e'] step2
  let step4 := replaceAllL ['ü'] ['u', 'e'] step3
  let step5 := replaceAllL ['ß'] ['s', 's'] step4
  trimL (collapseWs step5)

/-- String version of `normalize002L`. -/
def normalize002 (s : String) : String := ⟨normalize002L s.data⟩

/-- Embedding of `utils.normalizeText` of `src/server.js`: `toLowerCase`,
NFD, strip combining accents, collapse whitespace, then `ae→ä`, `oe→ö`,
`ue→ü`, trim. -/
def normalizeTextL (l : List Char) : List Char :=
  let step1 := collapseWs ((jsToLower l).map stripAccentChar)
  let step2 := replaceAllL ['a', 'e'] ['ä'] step1
  let step3 := replaceAllL ['o', 'e'] ['ö'] step2
  let step4 := replaceAllL ['u', 'e'] ['ü'] step3
  trimL step4

/-- String version of `normalizeTextL`. -/
def normalizeText (s : String) : String := ⟨normalizeTextL s.data⟩

/-! ## Integer coercion -/

/-- JS `parseInt(s, 10)`: optional sign followed by a maximal run of decimal
digits; `none` models `NaN` (no leading digits). -/
def jsParseInt (l : List Char) : Option Int :=
  let l := l.dropWhile isWsChar
  let (sign, rest) :=
    match l with
    | '-' :: r => ((-1 : Int), r)
    | '+' :: r => ((1 : Int), r)
    | r => ((1 : Int), r)
  let digits := rest.takeWhile isDigitChar
  if digits = [] then none
  else some (sign * (digits.foldl (fun a c => a * 10 + ((c.toNat : Int) - 48)) 0))

/-- Embedding of `utils.coerceInt` of part_002 / `src/src/server.js`:
`null/undefined/""` give the default, otherwise `parseInt` with
`Math.max(0, n)` on success and the default on `NaN`. -/
def coerceInt (v : Option String) (deflt : Int) : Int :=
  match v with
  | none => deflt
  | some s =>
    if s.data = [] then deflt
    else
      match jsParseInt (trimL s.data) with
      | some n => max 0 n
      | none => deflt

/-! ## Lookup tables (process-wide immutable configuration) -/

/-- Relative-day table of part_002 and `src/server.js`
(`LOOKUP_TABLES.relativeDates`), in `Map` insertion order — the iteration
order of the lookup loops. -/
def relativeDatesTable : List (String × Nat) :=
  [("heute", 0), ("morgen", 1), ("übermorgen", 2), ("uebermorgen", 2)]

/-- Board-rate table of part_002 / `src/src/server.js` / part_005
(`LOOKUP_TABLES.boardRates` / `boardAddMap`). -/
def boardRatesTable : List (String × Nat) :=
  [("ohne verpflegung", 0), ("frühstück", 8), ("halbpension", 18), ("vollpension", 28)]

/-- Weekday table of `src/server.js` (`LOOKUP_TABLES.weekdaysDE`),
0 = Sunday … 6 = Saturday. -/
def weekdaysDE : List (String × Nat) :=
  [("sonntag", 0), ("so", 0), ("so.", 0),
   ("montag", 1), ("mo", 1), ("mo.", 1),
   ("dienstag", 2), ("di", 2), ("di.", 2),
   ("mittwoch", 3), ("mi", 3), ("mi.", 3),
   ("donnerstag", 4), ("do", 4), ("do.", 4),
   ("freitag", 5), ("fr", 5), ("fr.", 5),
   ("samstag", 6), ("sa", 6), ("sa.", 6), ("sonnabend", 6)]

/-- Month-name table of `src/server.js` (`LOOKUP_TABLES.monthsDE`). -/
def monthsDE : List (String × Nat) :=
  [("jan", 1), ("jän", 1), ("januar", 1),
   ("feb", 2), ("februar", 2),
   ("mar", 3), ("mär", 3), ("mrz", 3), ("maerz", 3), ("märz", 3),
   ("apr", 4), ("april", 4),
   ("mai", 5),
   ("jun", 6), ("juni", 6),
   ("jul", 7), ("juli", 7),
   ("aug", 8), ("august", 8),
   ("sep", 9), ("sept", 9), ("september", 9),
   ("okt", 10), ("oktober", 10),
   ("nov", 11), ("november", 11),
   ("dez", 12), ("dezember", 12), ("december", 12)]

/-- Month-name table of part_002 / `src/src/server.js`
(`LOOKUP_TABLES.months`). -/
def months002 : List (String × Nat) :=
  [("januar", 1), ("jan", 1), ("februar", 2), ("feb", 2),
   ("maerz", 3), ("märz", 3), ("mrz", 3), ("mar", 3),
   ("april", 4), ("apr", 4), ("mai", 5),
   ("juni", 6), ("jun", 6), ("juli", 7), ("jul", 7),
   ("august", 8), ("aug", 8), ("september", 9), ("sep", 9), ("sept", 9),
   ("oktober", 10), ("okt", 10), ("november", 11), ("nov", 11),
   ("dezember", 12), ("dez", 12)]

/-- Number-word table of `src/server.js` (`LOOKUP_TABLES.numberWords`). -/
def numberWords : List (String × Nat) :=
  [("eins", 1), ("eine", 1), ("einen", 1), ("einem", 1), ("einer", 1), ("ein", 1),
   ("zwei", 2), ("drei", 3), ("vier", 4), ("fünf", 5), ("funf", 5),
   ("sechs", 6), ("sieben", 7), ("acht", 8), ("neun", 9), ("zehn", 10),
   ("elf", 11), ("zwölf", 12), ("zwolf", 12), ("dreizehn", 13), ("vierzehn", 14),
   ("fünfzehn", 15), ("funfzehn", 15), ("sechzehn", 16), ("siebzehn", 17),
   ("achtzehn", 18), ("neunzehn", 19), ("zwanzig", 20),
   ("einundzwanzig", 21), ("zweiundzwanzig", 22), ("dreiundzwanzig", 23),
   ("vierundzwanzig", 24), ("fünfundzwanzig", 25), ("funfundzwanzig", 25),
   ("sechsundzwanzig", 26), ("siebenundzwanzig", 27), ("achtundzwanzig", 28),
   ("neunundzwanzig", 29), ("dreißig", 30), ("dreissig", 30),
   ("einunddreißig", 31), ("einunddreissig", 31)]

/-- First-match lookup in an association list (JS `Map.prototype.get` /
object-property lookup for the frozen tables above, whose keys are
distinct). -/
def tblGet (tbl : List (String × Nat)) (k : String) : Option Nat :=
  (tbl.find? (fun p => p.1 = k)).map (·.2)

/-! ## Regex matchers

Each source regex is embedded as an executable matcher on `List Char`.
JS regex semantics are followed: leftmost match, alternatives tried left to
right, quantifiers greedy with backtracking.  Where greedy matching without
backtracking is provably equivalent for the pattern at hand (because
everything following the quantifier is optional, or because a shorter match
leaves a character that the continuation can never accept), the matcher is
written greedily and the argument is recorded here. -/

/-- Numeric value of a list of decimal digits (JS `parseInt` on a captured
all-digit group). -/
def digitsVal (l : List Char) : Nat :=
  l.foldl (fun a c => a * 10 + (c.toNat - 48)) 0

/-- Strip one trailing `'.'` (`replace(/\.$/, "")`). -/
def stripTrailingDot (l : List Char) : List Char :=
  match l.reverse with
  | '.' :: r => r.reverse
  | _ => l

/-- Split on whitespace runs (JS `split(/\s+/)` on an already trimmed
string). -/
def splitWsFuel : Nat → List Char → List (List Char)
  | 0, _ => []
  | _ + 1, [] => []
  | fuel + 1, l =>
    let word := l.takeWhile (fun c => ¬ isWsChar c)
    let rest := (l.dropWhile (fun c => ¬ isWsChar c)).dropWhile isWsChar
    word :: splitWsFuel fuel rest

/-- JS `split(/\s+/)` of a trimmed string. -/
def splitWs (l : List Char) : List (List Char) := splitWsFuel l.length l

/-- First relative-day key of `relativeDatesTable` contained in `s`
(the `for … of LOOKUP_TABLES.relativeDates` / `s.includes(key)` loop of both
`parseDateSmart` and `parseDateAny`; `Map` iteration order is insertion
order, so `"morgen"` is tested before `"übermorgen"`). -/
def relativeHit (s : List Char) : Option Nat :=
  (relativeDatesTable.find? (fun p => containsSub p.1.data s)).map (·.2)

/-- Matcher for `/in\s+(\d{1,2})\s*tag(?:e|en)?/` at one position: literal
`"in"`, one or more whitespace, one or two digits (greedy, with the single
backtracking step the pattern admits), optional whitespace, literal
`"tag"`. -/
def inTagenAt (l : List Char) : Option Nat :=
  match l with
  | 'i' :: 'n' :: rest =>
    let ws := rest.takeWhile isWsChar
    if ws = [] then none
    else
      let afterWs := rest.dropWhile isWsChar
      let tryDigits : List Char → Option Nat := fun ds =>
        let tail := afterWs.drop ds.length
        if isPrefixList ['t', 'a', 'g'] (tail.dropWhile isWsChar) then
          some (digitsVal ds)
        else none
      match afterWs.takeWhile isDigitChar with
      | [] => none
      | [a] => tryDigits [a]
      | a :: b :: _ => (tryDigits [a, b]).orElse (fun _ => tryDigits [a])
  | _ => none

/-- Scanner for `/in\s+(\d{1,2})\s*tag(?:e|en)?/` (first match anywhere,
JS `String.prototype.match`). -/
def findInTagen : List Char → Option Nat
  | [] => none
  | l@(_ :: cs) => (inTagenAt l).orElse (fun _ => findInTagen cs)

/-- Try the first alternative of the weekday pattern
`/(?:nächsten|kommenden|am)\s+([a-zäöüß.]+)/` at one position and return the
capture. -/
def wdAlt1At (l : List Char) : Option (List Char) :=
  let tryLit : List Char → Option (List Char) := fun lit =>
    if isPrefixList lit l then
      let rest := l.drop lit.length
      if rest.takeWhile isWsChar = [] then none
      else
        let afterWs := rest.dropWhile isWsChar
        let w := afterWs.takeWhile isWordClassChar
        if w = [] then none else some w
    else none
  ((tryLit "nächsten".data).orElse fun _ =>
    (tryLit "kommenden".data).orElse fun _ =>
      tryLit "am".data)

/-- Matcher for the full weekday pattern
`/(?:nächsten|kommenden|am)\s+([a-zäöüß.]+)|^([a-zäöüß.]+)$/`: the engine
tries both alternatives at position 0 (where `^` of the second can hold) and
then the first alternative at each later position, left to right. -/
def wdCapture (l : List Char) : Option (List Char) :=
  match wdAlt1At l with
  | some w => some w
  | none =>
    if l ≠ [] ∧ l.all isWordClassChar then some l
    else wdScanTail l
where
  /-- First-alternative scan over positions `1, 2, …`. -/
  wdScanTail : List Char → Option (List Char)
    | [] => none
    | _ :: cs =>
      match wdAlt1At cs with
      | some w => some w
      | none => wdScanTail cs

/-- Matcher for `/^\d{4}-\d{2}-\d{2}$/` returning the three numeric
components. -/
def isoMatch (l : List Char) : Option (Nat × Nat × Nat) :=
  match l with
  | [y1, y2, y3, y4, '-', m1, m2, '-', d1, d2] =>
    if [y1, y2, y3, y4, m1, m2, d1, d2].all isDigitChar then
      some (digitsVal [y1, y2, y3, y4], digitsVal [m1, m2], digitsVal [d1, d2])
    else none
  | _ => none

/-- Separator class `[./\-]` (written here reordered; the source spells the class `.` `\-` `/`) of the European-date pattern. -/
def isEuroSep (c : Char) : Bool := c = '.' || c = '-' || c = '/'

/-- Suffix check `\s*\.?$`: optional whitespace, optional single dot, end. -/
def euroFinish (l : List Char) : Bool :=
  match l.dropWhile isWsChar with
  | [] => true
  | ['.'] => true
  | _ => false

/-- Year part `(?:[./\-]\s*(\d{2,4}))?\s*\.?$` of the European-date pattern
after the month: try the optional group first (year digits greedy, 4 down
to 2 — a shorter year leaves a digit that `\s*\.?$` can never accept, so
only the greedy length can succeed) and otherwise require `\s*\.?$`
directly. -/
def euroYear (l : List Char) : Option (Option (List Char)) :=
  let withGroup : Option (Option (List Char)) :=
    match l with
    | sep :: rest =>
      if isEuroSep sep then
        let afterWs := rest.dropWhile isWsChar
        let ds := (afterWs.takeWhile isDigitChar).take 4
        if 2 ≤ ds.length ∧ euroFinish (afterWs.drop ds.length) then
          some (some ds)
        else none
      else none
    | [] => none
  withGroup.orElse fun _ => if euroFinish l then some none else none

/-- Matcher for the European-date pattern of `src/server.js`
`/^(\d{1,2})[./\-]\s*(\d{1,2})(?:[./\-]\s*(\d{2,4}))?\s*\.?$/`, returning
`(day digits, month digits, optional year digits)`.  Day and month are
matched greedily with the one backtracking step (2 digits, then 1) the
pattern admits. -/
def euroMatch (l : List Char) : Option (List Char × List Char × Option (List Char)) :=
  let afterDay : List Char → List Char → Option (List Char × List Char × Option (List Char)) :=
    fun dds rest =>
      match rest with
      | sep :: rest2 =>
        if isEuroSep sep then
          let afterWs := rest2.dropWhile isWsChar
          let tryMonth : List Char → Option (List Char × List Char × Option (List Char)) :=
            fun mds =>
              if mds.all isDigitChar ∧ mds ≠ [] then
                (euroYear (afterWs.drop mds.length)).map fun yOpt => (dds, mds, yOpt)
              else none
          match afterWs with
          | a :: b :: _ =>
            if isDigitChar a ∧ isDigitChar b then
              (tryMonth [a, b]).orElse fun _ => tryMonth [a]
            else tryMonth [a]
          | [a] => tryMonth [a]
          | [] => none
        else none
      | [] => none
  match l with
  | a :: b :: rest =>
    if isDigitChar a then
      if isDigitChar b then
        (afterDay [a, b] rest).orElse fun _ => afterDay [a] (b :: rest)
      else afterDay [a] (b :: rest)
    else none
  | _ => none

/-- Matcher for the long-date pattern of `src/server.js`
`/^(\d{1,2})\.?\s+([a-zäöüß.]+)(?:\s+(\d{4}))?$/i`, returning
`(day digits, month word, optional year digits)`. -/
def longMatch (l : List Char) : Option (List Char × List Char × Option (List Char)) :=
  let afterDay : List Char → Option (List Char × List Char) := fun rest =>
    -- `\s+([a-zäöüß.]+)` : mandatory whitespace then a maximal word-class run
    if rest.takeWhile isWsChar = [] then none
    else
      let afterWs := rest.dropWhile isWsChar
      let w := afterWs.takeWhile isWordClassChar
      if w = [] then none else some (w, afterWs.drop w.length)
  let withDay : List Char → List Char → Option (List Char × List Char × Option (List Char)) :=
    fun dds rest =>
      -- `\.?` : optional dot, tried greedily first
      let cont : List Char → Option (List Char × List Char) := afterDay
      let attempt :=
        match rest with
        | '.' :: r2 => (cont r2).orElse fun _ => cont rest
        | _ => cont rest
      match attempt with
      | none => none
      | some (w, tail) =>
        -- `(?:\s+(\d{4}))?$`
        if tail = [] then some (dds, w, none)
        else
          if tail.takeWhile isWsChar = [] then none
          else
            match (tail.dropWhile isWsChar).takeWhile isDigitChar with
            | [y1, y2, y3, y4] =>
              if (tail.dropWhile isWsChar).drop 4 = [] then
                some (dds, w, some [y1, y2, y3, y4])
              else none
            | _ => none
  match l with
  | a :: b :: rest =>
    if isDigitChar a then
      if isDigitChar b then
        (withDay [a, b] rest).orElse fun _ => withDay [a] (b :: rest)
      else withDay [a] (b :: rest)
    else none
  | [a] => if isDigitChar a then withDay [a] [] else none
  | [] => none

/-! ## Matchers of part_002 / src-src `parseDateAny` and `extractWithRules` -/

/-- Year group of the anchored patterns `(?:SEP(\d{2,4}))?$` of
`utils.parseDateAny`: either a separator followed by 2–4 digits (greedy; a
shorter year leaves a digit that `$` can never accept) reaching the end, or
the end directly. -/
def sepYearEnd (sep : Char) (l : List Char) : Option (Option (List Char)) :=
  let withGroup : Option (Option (List Char)) :=
    match l with
    | c :: rest =>
      if c = sep then
        let ds := (rest.takeWhile isDigitChar).take 4
        if 2 ≤ ds.length ∧ rest.drop ds.length = [] then some (some ds) else none
      else none
    | [] => none
  withGroup.orElse fun _ => if l = [] then some none else none

/-- Day/month part shared by the anchored and the scanning `D SEP M` matchers:
`(\d{1,2})SEP(\d{1,2})` at the head of `l`, returning day digits, month
digits and the remainder.  `\d{1,2}` is greedy; the single possible
backtracking step (two digits, then one, when the separator does not follow)
is included. -/
def dayMonthAt (sep : Char) (l : List Char) : Option (List Char × List Char × List Char) :=
  let afterSep : List Char → List Char → Option (List Char × List Char × List Char) :=
    fun dds rest =>
      match rest with
      | a :: b :: tail =>
        if isDigitChar a then
          if isDigitChar b then some (dds, [a, b], tail)
          else some (dds, [a], b :: tail)
        else none
      | [a] => if isDigitChar a then some (dds, [a], []) else none
      | [] => none
  match l with
  | a :: b :: c :: rest =>
    if isDigitChar a then
      if isDigitChar b then
        if c = sep then afterSep [a, b] rest
        else none
      else if b = sep then afterSep [a] (c :: rest)
      else none
    else none
  | [a, b] => if isDigitChar a ∧ b = sep then none else none
  | _ => none

/-- Anchored matcher `/^(\d{1,2})SEP(\d{1,2})(?:SEP(\d{2,4}))?$/` of
`utils.parseDateAny` (with `SEP` the dot or the slash). -/
def anchoredDateMatch (sep : Char) (l : List Char) : Option (List Char × List Char × Option (List Char)) :=
  match dayMonthAt sep l with
  | some (dds, mds, rest) => (sepYearEnd sep rest).map fun y => (dds, mds, y)
  | none => none

/-- Anchored matcher `/^(\d{1,2})\.\s*([a-z]+)(?:\s*(\d{2,4}))?$/` of the
`DD. <month>` branch of `utils.parseDateAny` (applied to the normalized
string, hence the ASCII-only letter class). -/
def monthNameMatch (l : List Char) : Option (List Char × List Char × Option (List Char)) :=
  let afterDay : List Char → List Char → Option (List Char × List Char × Option (List Char)) :=
    fun dds rest =>
      match rest with
      | '.' :: r2 =>
        let afterWs := r2.dropWhile isWsChar
        let w := afterWs.takeWhile isAsciiLower
        if w = [] then none
        else
          let tail := afterWs.drop w.length
          if tail = [] then some (dds, w, none)
          else
            let ds := ((tail.dropWhile isWsChar).takeWhile isDigitChar).take 4
            if 2 ≤ ds.length ∧ (tail.dropWhile isWsChar).drop ds.length = [] then
              some (dds, w, some ds)
            else none
      | _ => none
  match l with
  | a :: b :: rest =>
    if isDigitChar a then
      if isDigitChar b then afterDay [a, b] rest
      else afterDay [a] (b :: rest)
    else none
  | _ => none

/-- One match attempt of the scanning pattern
`/(\b\d{1,2})SEP(\d{1,2})(?:SEP(\d{2,4}))?/g` at the current position
(the `\b` word-boundary check is done by the caller), returning captures and
the remainder after the match (`lastIndex`). -/
def scanDateAt (sep : Char) (l : List Char) : Option ((List Char × List Char × Option (List Char)) × List Char) :=
  match dayMonthAt sep l with
  | some (dds, mds, rest) =>
    -- optional `(?:SEP(\d{2,4}))?` — greedy year, 4 digits down to 2
    match rest with
    | c :: r2 =>
      if c = sep then
        let ds := (r2.takeWhile isDigitChar).take 4
        if 2 ≤ ds.length then some ((dds, mds, some ds), r2.drop ds.length)
        else some ((dds, mds, none), rest)
      else some ((dds, mds, none), rest)
    | [] => some ((dds, mds, none), [])
  | none => none

/-- Scanner for the global date patterns of `extractWithRules`
(`rawText.matchAll(REGEX.dotDate)` / `REGEX.slashDate`): positions are tried
left to right, a match may start only at a `\b` boundary (previous character
not a word character), and scanning resumes after each match. -/
def scanDatesFuel (sep : Char) (prevIsWord : Bool) : Nat → List Char → List (List Char × List Char × Option (List Char))
  | 0, _ => []
  | _ + 1, [] => []
  | fuel + 1, l@(c :: cs) =>
    if ¬ prevIsWord then
      match scanDateAt sep l with
      | some (caps, rest) =>
        -- every match ends in a digit, hence at a word character
        caps :: scanDatesFuel sep true fuel rest
      | none => scanDatesFuel sep (isWordChar c) fuel cs
    else scanDatesFuel sep (isWordChar c) fuel cs

/-- All matches of the dot/slash date patterns in `rawText`. -/
def scanDates (sep : Char) (l : List Char) : List (List Char × List Char × Option (List Char)) :=
  scanDatesFuel sep false l.length l

/-- Leftmost match of the guest-count patterns
`/(\d+)\s*(?:kw₁|kw₂|…)\b/i` (`REGEX.adults`, `REGEX.children`): a maximal
digit run (backtracking to a shorter run never helps because the keywords
start with letters), optional whitespace, one of the keywords in alternation
order, and a word boundary.  Returns the digit capture. -/
def countCapture (kws : List (List Char)) : List Char → Option (List Char)
  | [] => none
  | l@(c :: cs) =>
    let here : Option (List Char) :=
      if isDigitChar c then
        let ds := l.takeWhile isDigitChar
        let afterWs := (l.drop ds.length).dropWhile isWsChar
        let kwOk := kws.find? fun kw =>
          isPrefixList kw afterWs &&
            (match afterWs.drop kw.length with
             | [] => true
             | c2 :: _ => ! isWordChar c2)
        if kwOk.isSome then some ds else none
      else none
    here.orElse fun _ => countCapture kws cs

/-! ## JavaScript Date instants and the timezone model

A JS `Date` is an instant in milliseconds since the Unix epoch.  The process
timezone is modelled as a fixed offset of `off` minutes east of UTC (local
time = UTC + `off`); `new Date(y, m, d)` built from components denotes local
midnight, `toISOString` renders the UTC calendar day of the instant. -/

/-- Unix day number of the rata-die day `rd` (1970-01-01 is rata die
719163). -/
def unixDayOfRd (rd : Nat) : Int := (rd : Int) - 719163

/-- Instant (ms) of local midnight of civil day `rd` under UTC offset `off`
minutes. -/
def localMidnightMs (off : Int) (rd : Nat) : Int :=
  unixDayOfRd rd * 86400000 - off * 60000

/-- UTC calendar day (as rata die) containing the instant `ms`
(`toISOString` semantics: floor division by the ms-per-day). -/
def utcRdOfMs (ms : Int) : Nat := (ms / 86400000 + 719163).toNat

/-- Local calendar day (as rata die) containing the instant `ms` under UTC
offset `off` minutes (`getFullYear`/`getDate` semantics). -/
def localRdOfMs (off : Int) (ms : Int) : Nat := utcRdOfMs (ms + off * 60000)

/-- Rendering `toISOString().slice(0, 10)` of an instant. -/
def toIsoSlice (ms : Int) : String := ymdOfRd (utcRdOfMs ms)

/-- Rata-die day of `new Date(y, mo - 1, d)` for 1-based month `mo`:
JavaScript normalizes month and day overflow (`new Date(2025, 1, 31)` is
March 3), embedded by adding the day offset to the first of the normalized
month. -/
def jsMakeDayRd (y mo d : Nat) : Nat :=
  let y' := y + (mo + 11) / 12 - 1
  let m' := (mo + 11) % 12 + 1
  daysFromCivil y' m' 1 + d - 1

/-- Model of the V8 legacy date parser (`new Date(string)` on non-ISO input)
for the string shapes that reach it in this development: strings of one to
three numbers separated by single `.`, `/` or `-` characters, with at most
one trailing separator.  V8 parses such strings month-first
(`month day [year]`, or `year month day` when the first number exceeds 31),
rejects months outside 1…12 and days outside 1…31, and defaults a missing
year to 2001; any string containing a letter that is not a recognized English
month name is rejected, and no input here contains a month name.  Only the
rejection paths (month out of range, letters present) are exercised by the
theorems below. -/
def jsLegacyParse (l : List Char) : Option (Nat × Nat × Nat) :=
  let ok := l.all fun c => isDigitChar c || isEuroSep c
  if ¬ ok then none
  else
    let toks := (l.splitOnP isEuroSep).map (·.takeWhile isDigitChar)
    let nums := (toks.filter (· ≠ [])).map digitsVal
    let compose : Nat → Nat → Nat → Option (Nat × Nat × Nat) := fun y mo d =>
      if 1 ≤ mo ∧ mo ≤ 12 ∧ 1 ≤ d ∧ d ≤ 31 then some (y, mo, d) else none
    match nums with
    | [a, b] => compose 2001 a b
    | [a, b, c] =>
      if 31 < a then compose a b c
      else compose (if c < 50 then c + 2000 else if c < 100 then c + 1900 else c) a b
    | _ => none

/-- Local-midnight instant of a V8 legacy parse result (legacy date-only
strings denote local time). -/
def jsLegacyParseMs (off : Int) (l : List Char) : Option Int :=
  (jsLegacyParse l).map fun (y, mo, d) => localMidnightMs off (jsMakeDayRd y mo d)

/-! ## utils.parseDateAny and extractWithRules (part_002 / src-src) -/

/-- Month lookup of the `DD. <month>` branch of `utils.parseDateAny`
(`LOOKUP_TABLES.months.get(mon)`, exact key only). -/
def monthLookup002 (w : List Char) : Option Nat := tblGet months002 ⟨w⟩

/-- Year defaulting of `utils.parseDateAny`:
`let year = y ? parseInt(y) : new Date().getFullYear(); if (year < 100) year += 2000`.
`currentYear` is the local year of the current instant. -/
def yearDefault002 (currentYear : Nat) (yOpt : Option (List Char)) : Nat :=
  match yOpt with
  | none => currentYear
  | some ds => let yv := digitsVal ds; if yv < 100 then yv + 2000 else yv

/-- Embedding of `utils.parseDateAny` of part_002 / `src/src/server.js`.
`tz` is the process UTC offset in minutes and `nowMs` the current instant;
together they embed the `new Date()` / `new Date(year, mo - 1, d)` /
`toISOString` calls.  Returns the `YYYY-MM-DD` slice or `none` for `null`. -/
def parseDateAny (tz nowMs : Int) (input : String) : Option String :=
  if input.data = [] then none
  else
    let str := trimL input.data
    if (isoMatch str).isSome then some ⟨str⟩
    else
      let currentYear := (civilFromDays (localRdOfMs tz nowMs)).y
      let build : List Char × List Char × Option (List Char) → String :=
        fun (dds, mds, yOpt) =>
          let year := yearDefault002 currentYear yOpt
          toIsoSlice (localMidnightMs tz (jsMakeDayRd year (digitsVal mds) (digitsVal dds)))
      match anchoredDateMatch '.' str with
      | some caps => some (build caps)
      | none =>
      match anchoredDateMatch '/' str with
      | some caps => some (build caps)
      | none =>
        let normalized := normalize002L str
        let monthBranch : Option String :=
          match monthNameMatch normalized with
          | some (dds, w, yOpt) =>
            match monthLookup002 w with
            | some mo =>
              let year := yearDefault002 currentYear yOpt
              some (toIsoSlice (localMidnightMs tz (jsMakeDayRd year mo (digitsVal dds))))
            | none => none
          | none => none
        match monthBranch with
        | some r => some r
        | none =>
          match relativeHit normalized with
          | some offset => some (toIsoSlice (nowMs + (offset : Int) * 86400000))
          | none => (jsLegacyParseMs tz str).map toIsoSlice

/-- Result shape of `extractWithRules`. -/
structure RuleSlots where
  check_in : Option String
  check_out : Option String
  adults : Int
  children : Int
deriving DecidableEq, Repr

/-- Keyword alternation of `REGEX.adults`
(`/(\d+)\s*(?:erwachsene|erwachsener|personen|person)\b/i`). -/
def adultKws : List (List Char) :=
  ["erwachsene".data, "erwachsener".data, "personen".data, "person".data]

/-- Keyword alternation of `REGEX.children` (`/(\d+)\s*(?:kind|kinder)\b/i`). -/
def childKws : List (List Char) := ["kind".data, "kinder".data]

/-- JS `Set` insertion followed by `Array.from`: deduplicate keeping first
occurrences. -/
def dedupFirst (l : List String) : List String :=
  l.foldl (fun acc x => if acc.contains x then acc else acc ++ [x]) []

/-- Insertion into a lexicographically sorted list. -/
def insertSorted (s : String) : List String → List String
  | [] => [s]
  | x :: xs => if jsStrLt s x then s :: x :: xs else x :: insertSorted s xs

/-- JS `Array.prototype.sort()` with the default (lexicographic string)
comparator. -/
def sortStrings (l : List String) : List String := l.foldr insertSorted []

/-- Date-candidate collection of `extractWithRules`: scan the raw text for
dotted and slashed date candidates, rebuild each candidate as
`` d + "." + mo + "." + (y or "") `` (note the trailing separator when no
year was captured) and re-parse it with `utils.parseDateAny`; deduplicate
(JS `Set`) and sort lexicographically (JS default `Array.sort`). -/
def extractDates (tz nowMs : Int) (rawText : String) : List String :=
  let rebuild : Char → List Char × List Char × Option (List Char) → String :=
    fun sep (dds, mds, yOpt) => ⟨dds ++ sep :: mds ++ sep :: yOpt.getD []⟩
  let dotParsed := (scanDates '.' rawText.data).filterMap
    fun caps => parseDateAny tz nowMs (rebuild '.' caps)
  let slashParsed := (scanDates '/' rawText.data).filterMap
    fun caps => parseDateAny tz nowMs (rebuild '/' caps)
  sortStrings (dedupFirst (dotParsed ++ slashParsed))

/-- Adults extraction of `extractWithRules` from the normalized text:
regex capture coerced with default 1, else 1. -/
def extractAdults (text : List Char) : Int :=
  match countCapture adultKws text with
  | some ds => coerceInt (some ⟨ds⟩) 1
  | none => 1

/-- Children extraction of `extractWithRules` from the normalized text:
regex capture coerced with default 0, else 0. -/
def extractChildren (text : List Char) : Int :=
  match countCapture childKws text with
  | some ds => coerceInt (some ⟨ds⟩) 0
  | none => 0

/-- Embedding of `extractWithRules` of part_002 / `src/src/server.js`:
non-string/empty input short-circuits to the defaults; otherwise the first
two sorted date candidates become check-in/check-out and the guest counts
are extracted from the normalized text. -/
def extractWithRules (tz nowMs : Int) (rawText : String) : RuleSlots :=
  if rawText.data = [] then ⟨none, none, 1, 0⟩
  else
    ⟨(extractDates tz nowMs rawText).get? 0,
     (extractDates tz nowMs rawText).get? 1,
     extractAdults (normalize002L rawText.data),
     extractChildren (normalize002L rawText.data)⟩

/-! ## parseDateSmart (src/server.js) -/

/-- Result record of `parseDateSmart` (`ok`, `date`, `reason`,
`needs_confirmation`, `notes`). -/
structure ParseOutcome where
  ok : Bool
  date : Option String := none
  reason : Option String := none
  needs_confirmation : Bool := false
  notes : List String := []
deriving DecidableEq, Repr

/-- Month lookup chain of `src/server.js`
(`monthsDE.get(normalized.slice(0,3)) || monthsDE.get(normalized) ||
monthsDE.get(monthKey)`; all table values are positive, so `||` is
`orElse`). -/
def monthChainLookup (monthKey : List Char) : Option Nat :=
  let normalized := normalizeTextL monthKey
  ((tblGet monthsDE ⟨normalized.take 3⟩).orElse fun _ =>
    (tblGet monthsDE ⟨normalized⟩).orElse fun _ =>
      tblGet monthsDE ⟨monthKey⟩)

/-- Is `suf` a suffix of `l`? -/
def isSuffixList (suf l : List Char) : Bool := isPrefixList suf.reverse l.reverse

/-- Ordinal suffixes of `REGEX.ordinalSuffix`
`/(?:ste|sten|ster|stes|te|ten|ter|tes)$/`, ordered by decreasing length:
the leftmost end-anchored match of the JS alternation is exactly the longest
listed suffix. -/
def ordSuffixes : List (List Char) :=
  ["sten".data, "ster".data, "stes".data, "ste".data, "ten".data, "ter".data,
   "tes".data, "te".data]

/-- Replace `REGEX.ordinalSuffix` by the empty string. -/
def stripOrdSuffix (l : List Char) : List Char :=
  match ordSuffixes.find? (fun suf => isSuffixList suf l) with
  | some suf => l.take (l.length - suf.length)
  | none => l

/-- Embedding of `utils.wordToNum` of `src/server.js`: lower-case, NFD accent
strip, strip the ordinal suffix, look up in `numberWords` (all values
positive, so `|| null` is the plain lookup). -/
def wordToNum (w : List Char) : Option Nat :=
  tblGet numberWords ⟨stripOrdSuffix ((jsToLower w).map stripAccentChar)⟩

/-- Embedding of `parseDayMonthWords` of `src/server.js`: day word, then
month name (via the lookup chain) or month number word 1–12 (the latter
forcing confirmation). -/
def parseDayMonthWords (s : List Char) : Option (Nat × Nat × Bool) :=
  match splitWs (trimL s) with
  | p0 :: p1 :: _ =>
    match wordToNum p0 with
    | none => none
    | some d =>
      if 1 ≤ d ∧ d ≤ 31 then
        match monthChainLookup (stripTrailingDot p1) with
        | some m => some (d, m, false)
        | none =>
          match wordToNum p1 with
          | some mNum => if 1 ≤ mNum ∧ mNum ≤ 12 then some (d, mNum, true) else none
          | none => none
      else none
  | _ => none

/-- Outcome of the first three branches of `parseDateSmart` (relative words,
`in N Tagen`, weekday); their firing conditions depend only on the
normalized input string, never on the base date, so they are classified
separately. -/
inductive EarlyHit where
  | rel (offset : Nat)
  | inDays (n : Nat)
  | wkday (w : Nat)
  | nohit
deriving DecidableEq, Repr

/-- Weekday branch condition of `parseDateSmart`: regex capture, trailing-dot
strip, table lookup (`weekdayNum !== undefined`, so the value 0 for Sunday
does fire). -/
def earlyWeekday (s : String) : EarlyHit :=
  match wdCapture s.data with
  | some cap =>
    match tblGet weekdaysDE ⟨stripTrailingDot cap⟩ with
    | some w => .wkday w
    | none => .nohit
  | none => .nohit

/-- Branch classification for the three base-date-independent branches of
`parseDateSmart`, in source order: relative-day table (substring match), the
`in N Tagen` pattern with its `0 < n < 365` guard (out-of-range matches fall
through, as in the source), then the weekday pattern. -/
def earlyClassify (s : String) : EarlyHit :=
  match relativeHit s.data with
  | some offset => .rel offset
  | none =>
    match findInTagen s.data with
    | some n => if 0 < n ∧ n < 365 then .inDays n else earlyWeekday s
    | none => earlyWeekday s

/-- European-date branch of `parseDateSmart` (two-digit years get 2000 added;
a missing year defaults to the base year and, when the resulting date lies
strictly before the base date as a string, is rolled forward one year
provided the rolled date is a valid calendar date — otherwise the past date
is returned untagged).  `none` means the branch falls through. -/
def euroBranchSmart (dds mds : List Char) (yOpt : Option (List Char)) (base : Ymd) :
    Option ParseOutcome :=
  let d := digitsVal dds
  let m := digitsVal mds
  let y0 :=
    match yOpt with
    | some ds => if ds.length = 2 then 2000 + digitsVal ds else digitsVal ds
    | none => base.y
  if isValidYmd y0 m d then
    let date0 := ymdStr ⟨y0, m, d⟩
    if yOpt = none ∧ jsStrLt date0 (ymdStr base) then
      if isValidYmd (y0 + 1) m d then
        some { ok := true, date := some (ymdStr ⟨y0 + 1, m, d⟩),
               needs_confirmation := true, notes := ["year_rolled_forward"] }
      else some { ok := true, date := some date0 }
    else some { ok := true, date := some date0 }
  else none

/-- Long-date branch of `parseDateSmart` (`20. Oktober [2025]`), with the
same year-rollover logic as the European branch. -/
def longBranchSmart (dds w : List Char) (yOpt : Option (List Char)) (base : Ymd) :
    Option ParseOutcome :=
  match monthChainLookup (stripTrailingDot w) with
  | none => none
  | some m =>
    let d := digitsVal dds
    let y0 := match yOpt with | some ds => digitsVal ds | none => base.y
    if isValidYmd y0 m d then
      let date0 := ymdStr ⟨y0, m, d⟩
      if yOpt = none ∧ jsStrLt date0 (ymdStr base) then
        if isValidYmd (y0 + 1) m d then
          some { ok := true, date := some (ymdStr ⟨y0 + 1, m, d⟩),
                 needs_confirmation := true, notes := ["year_rolled_forward"] }
        else some { ok := true, date := some date0 }
      else some { ok := true, date := some date0 }
    else none

/-- Word-date branch of `parseDateSmart` (`zweiter Oktober`): note that the
final validity check of the source runs on the possibly incremented year, so
an invalid rolled year makes the branch fall through (unlike the European and
long branches, which return the unrolled date). -/
def wordsBranchSmart (s : List Char) (base : Ymd) : Option ParseOutcome :=
  match parseDayMonthWords s with
  | none => none
  | some (d, m, nc0) =>
    let y0 := base.y
    let date0 := ymdStr ⟨y0, m, d⟩
    let rolled := jsStrLt date0 (ymdStr base)
    let y1 := if rolled then y0 + 1 else y0
    let updated := rolled && isValidYmd y1 m d
    let date1 := if updated then ymdStr ⟨y1, m, d⟩ else date0
    let nc := if updated then true else nc0
    if isValidYmd y1 m d then
      some { ok := true, date := some date1, needs_confirmation := nc,
             notes := if nc then ["ordinal_or_word_format"] else [] }
    else none

/-- Failure outcome of `parseDateSmart` for unrecognized input. -/
def smartFail (ty raw : String) : ParseOutcome :=
  { ok := false,
    reason := some (ty ++ " Format nicht erkannt: \"" ++ raw ++
      "\". Bitte z.B. \"22.10.2025\" oder \"morgen\""),
    needs_confirmation := false, notes := [] }

/-- Branches of `parseDateSmart` after the three early ones, in source
order: ISO, European numeric, long date, word date, native-`Date` fallback
(accepted when the parsed year exceeds `CONFIG.booking.minYear = 1900`),
then failure. -/
def parseDateSmartLate (s : List Char) (ty raw : String) (base : Ymd) : ParseOutcome :=
  let isoBranch : Option ParseOutcome :=
    match isoMatch s with
    | some (y, m, d) =>
      if isValidYmd y m d then some { ok := true, date := some (ymdStr ⟨y, m, d⟩) }
      else none
    | none => none
  match isoBranch with
  | some r => r
  | none =>
  match euroMatch s with
  | some (dds, mds, yOpt) =>
    match euroBranchSmart dds mds yOpt base with
    | some r => r
    | none => parseDateSmartTail s ty raw base
  | none => parseDateSmartTail s ty raw base
where
  /-- Long-date, word-date and fallback branches. -/
  parseDateSmartTail (s : List Char) (ty raw : String) (base : Ymd) : ParseOutcome :=
    let longRes : Option ParseOutcome :=
      match longMatch s with
      | some (dds, w, yOpt) => longBranchSmart dds w yOpt base
      | none => none
    match longRes with
    | some r => r
    | none =>
    match wordsBranchSmart s base with
    | some r => r
    | none =>
    match jsLegacyParse s with
    | some (y, mo, d) =>
      let rd := jsMakeDayRd y mo d
      if 1900 < (civilFromDays rd).y then
        { ok := true, date := some (ymdOfRd rd), needs_confirmation := true,
          notes := ["fallback_Date_parse"] }
      else smartFail ty raw
    | none => smartFail ty raw

/-- Embedding of `parseDateSmart` of `src/server.js`.  The base date enters
as civil components (`baseDate.getFullYear()`, `utils.ymd(baseDate)`) and as
the rata-die day `rdOf base` (`utils.addDays`, `utils.nextWeekday`). -/
def parseDateSmart (raw ty : String) (base : Ymd) : ParseOutcome :=
  if raw.data = [] then
    { ok := false, reason := some (ty ++ " fehlt oder ist ungültig") }
  else
    let s := normalizeText raw
    match earlyClassify s with
    | .rel offset => { ok := true, date := some (ymdOfRd (rdOf base + offset)) }
    | .inDays n => { ok := true, date := some (ymdOfRd (rdOf base + n)) }
    | .wkday w =>
      { ok := true, date := some (ymdOfRd (nextWeekdayRd (rdOf base) w)),
        needs_confirmation := true, notes := ["weekday_inferred"] }
    | .nohit => parseDateSmartLate s.data ty raw base

/-! ## normalizeDate of part_005 (relative-day branches) -/

/-- Normalization of `normalizeDate` of part_005: trim, lower-case, collapse
whitespace, then `ae→ä, oe→ö, ue→ü` (no accent stripping — the identity
umlaut replacements of the source are no-ops). -/
def normalize005L (l : List Char) : List Char :=
  let s1 := collapseWs (jsToLower (trimL l))
  replaceAllL ['u', 'e'] ['ü'] (replaceAllL ['o', 'e'] ['ö'] (replaceAllL ['a', 'e'] ['ä'] s1))

/-- Token-bounded occurrence test for the patterns `(^| )pat( |$)` of
`normalizeDate` (part_005): `pat` preceded by start or a space and followed
by end or a space. -/
def tokenHit (pat : List Char) (l : List Char) : Bool :=
  go true l
where
  go : Bool → List Char → Bool
    | _, [] => false
    | atBound, m@(c :: cs) =>
      (atBound && isPrefixList pat m &&
        (match m.drop pat.length with
         | [] => true
         | c2 :: _ => c2 = ' ')) ||
      go (c = ' ') cs

/-- Relative-day prefix of `normalizeDate` of part_005 (its first three
branches, the ones claim-relevant): `some r` when one of the token-bounded
`heute`/`morgen`/`übermorgen|uebermorgen` tests fires with result `r`,
`none` when control falls past them into the later branches (which are not
embedded here). -/
def normalizeDate005Rel (input : String) (base : Ymd) : Option String :=
  if input.data = [] then none
  else
    let s := normalize005L input.data
    if tokenHit "heute".data s then some (ymdOfRd (rdOf base))
    else if tokenHit "morgen".data s then some (ymdOfRd (rdOf base + 1))
    else if tokenHit "übermorgen".data s || tokenHit "uebermorgen".data s then
      some (ymdOfRd (rdOf base + 2))
    else none

/-! ## Nights, quote, spoken strings, commit, validation -/

/-- Instant of `new Date(string)`: strict ISO `YYYY-MM-DD` denotes UTC
midnight (invalid component values give `Invalid Date`), anything else goes
through the legacy parser model. -/
def jsNewDateMs (tz : Int) (s : String) : Option Int :=
  match isoMatch s.data with
  | some (y, m, d) =>
    if 1 ≤ m ∧ m ≤ 12 ∧ 1 ≤ d ∧ d ≤ daysInMonth y m then
      some (unixDayOfRd (daysFromCivil y m d) * 86400000)
    else none
  | none => jsLegacyParseMs tz s.data

/-- JS `Math.ceil(x / 86400000)` on an exact millisecond count:
`⌈x/N⌉ = -⌊-x/N⌋` (Lean `Int` `/` is floor division for a positive
divisor). -/
def ceilDayDiv (x : Int) : Int := -((-x) / 86400000)

/-- Embedding of `utils.nightsBetween` of part_002 / `src/src/server.js`
(and `nightsBetween` of part_005, which omits only the `isNaN` guard):
`Math.max(0, Math.ceil((B - A) / 86400000))`, and `0` when either date fails
to parse. -/
def nightsBetween (tz : Int) (a b : String) : Int :=
  match jsNewDateMs tz a, jsNewDateMs tz b with
  | some ma, some mb => max 0 (ceilDayDiv (mb - ma))
  | _, _ => 0

/-- Embedding of `utils.euro` of part_002 / part_005
(`Math.round(n * 100) / 100`), at cent scale: every amount in the quote
computation is an exact whole-euro float (`nights * (90 + boardRate) +
clubCareRate` with integer inputs), on which `euro` is the identity; amounts
are therefore carried as integer cents and `euro` multiplies by 100. -/
def euroCentsOfWholeEuros (n : Int) : Int := n * 100

/-- JS `Math.round(cents / 100 * mult)` (the `total_try` computation
`Math.round(total_eur * fx)` with `fx = 48`): `Math.round x = ⌊x + 1/2⌋`,
and `⌊c·m/100 + 1/2⌋ = ⌊(2·c·m + 100) / 200⌋` exactly (Lean `Int` `/` is
floor division). -/
def jsRoundCentsTimes (cents mult : Int) : Int := (cents * mult * 2 + 100) / 200

/-- JS `x || deflt` for a numeric table-lookup result: `undefined` and the
number `0` are both falsy. -/
def jsOrNum (v : Option Nat) (deflt : Nat) : Nat :=
  match v with
  | none => deflt
  | some n => if n = 0 then deflt else n

/-- Quote response data shared by the part_002 and part_005 quote routes
(`total_eur` in cents, `total_try`, `nights` and the breakdown fields; the
constant `fx = 48` is kept in the computation of `total_try`). -/
structure QuoteData where
  total_eur_cents : Int
  total_try : Int
  nights : Int
  basePerNight : Nat
  boardAdd : Nat
  clubCareAdd : Nat
  board : String
  adults : Int
  children : Int
deriving DecidableEq, Repr

/-- Embedding of `POST /retell/public/quote` of part_002 /
`src/src/server.js`: nights via `utils.nightsBetween`, board key via
`utils.normalize`, board rate `LOOKUP_TABLES.boardRates.get(boardKey) || 8`
(JS `||`: a 0-valued table entry falls to the default 8), club-care add-on
220, `total_eur = euro(nights * (90 + boardRate) + clubCareRate)`,
`total_try = Math.round(total_eur * 48)`.  `none` models the 400
`invalid_dates` response. -/
def quote002 (tz : Int) (check_in check_out : Option String) (board : String)
    (club_care : Bool) (adults children : Option String) : Option QuoteData :=
  let ci := check_in.getD ""
  let co := check_out.getD ""
  let nights := nightsBetween tz ci co
  if check_in = none ∨ ci.data = [] ∨ check_out = none ∨ co.data = [] ∨ nights ≤ 0 then
    none
  else
    let boardKey := normalize002 board
    let boardRate := jsOrNum (tblGet boardRatesTable boardKey) 8
    let clubCareRate : Nat := if club_care then 220 else 0
    let totalCents := euroCentsOfWholeEuros (nights * (90 + (boardRate : Int)) + (clubCareRate : Int))
    some { total_eur_cents := totalCents,
           total_try := jsRoundCentsTimes totalCents 48,
           nights := nights,
           basePerNight := 90,
           boardAdd := boardRate,
           clubCareAdd := clubCareRate,
           board := boardKey,
           adults := coerceInt (some (adults.getD "2")) 1,
           children := coerceInt (some (children.getD "0")) 0 }

/-- Embedding of `POST /retell/public/quote` of part_005: identical pricing
except that the board key is only lower-cased (`String(board).toLowerCase()`)
and the table lookup uses `?? 8` (nullish coalescing: the 0-valued entry is
kept), and the breakdown echoes the raw `board` value. -/
def quote005 (tz : Int) (check_in check_out : Option String) (board : String)
    (club_care : Bool) (adults children : Option String) : Option QuoteData :=
  let ci := check_in.getD ""
  let co := check_out.getD ""
  let nights := nightsBetween tz ci co
  if check_in = none ∨ ci.data = [] ∨ check_out = none ∨ co.data = [] ∨ nights ≤ 0 then
    none
  else
    let boardAdd := (tblGet boardRatesTable ⟨jsToLower board.data⟩).getD 8
    let clubCareAdd : Nat := if club_care then 220 else 0
    let totalCents := euroCentsOfWholeEuros (nights * (90 + (boardAdd : Int)) + (clubCareAdd : Int))
    some { total_eur_cents := totalCents,
           total_try := jsRoundCentsTimes totalCents 48,
           nights := nights,
           basePerNight := 90,
           boardAdd := boardAdd,
           clubCareAdd := clubCareAdd,
           board := board,
           adults := coerceInt (some (adults.getD "2")) 1,
           children := coerceInt (some (children.getD "0")) 0 }

/-- Spoken availability confirmation of `POST /retell/tool/check_availability`
of part_002 (v2.5.2), success case: the template always uses the plural
`"Nächte"`.  The `toLocaleDateString`-formatted dates enter as opaque
strings. -/
def spokenAvail002 (nights : Int) (fromF toF : String) : String :=
  "Für " ++ toString nights ++ " Nächte vom " ++ fromF ++ " bis " ++ toF ++
    " haben wir passende Unterkünfte verfügbar."

/-- Spoken availability confirmation of `POST /retell/tool/check_availability`
of `src/src/server.js` (v2.5.1), success case: the template appends `"e"` to
`"Nacht"`, producing `"Nachte"` without the umlaut. -/
def spokenAvailSrcSrc (nights : Int) (fromF toF : String) : String :=
  "Für " ++ toString nights ++ " Nacht" ++ (if 1 < nights then "e" else "") ++
    " vom " ++ fromF ++ " bis " ++ toF ++ " haben wir passende Unterkünfte verfügbar."

/-- Spoken availability confirmation of `computeCheckAvailability` of
`src/server.js`, success case, with correct singular/plural selection for
`Nacht`/`Nächte` and `Gast`/`Gäste`. -/
def spokenAvailSmart (nights : Int) (ciF coF : String) (roomsCount : Nat)
    (totalGuests : Int) : String :=
  "Für " ++ toString nights ++ " " ++ (if nights = 1 then "Nacht" else "Nächte") ++
    " vom " ++ ciF ++ " bis " ++ coF ++ " haben wir " ++ toString roomsCount ++
    " Apartments für " ++ toString totalGuests ++ " " ++
    (if totalGuests = 1 then "Gast" else "Gäste") ++ " verfügbar."

/-- JS `parseInt(x) || deflt`: `NaN` and `0` both fall to the default. -/
def jsParseIntOr (v : Option String) (deflt : Int) : Int :=
  match v with
  | none => deflt
  | some s =>
    match jsParseInt s.data with
    | none => deflt
    | some n => if n = 0 then deflt else n

/-- Outcome of `validateBookingRequest` of `src/server.js`. -/
structure ValidationOutcome where
  errors : List String
  adults : Int
  children : Int
  totalGuests : Int
deriving DecidableEq, Repr

/-- Embedding of `validateBookingRequest` of `src/server.js`:
`adults = parseInt(body.adults) || 1`, `children = parseInt(body.children)
|| 0`, then error records for `adults < 1`, `children < 0` and
`totalGuests > maxGuests = 10`. -/
def validateBookingRequest (adultsIn childrenIn : Option String) : ValidationOutcome :=
  let adults := jsParseIntOr adultsIn 1
  let children := jsParseIntOr childrenIn 0
  let totalGuests := adults + children
  let e1 := if adults < 1 then ["Mindestens 1 Erwachsener erforderlich"] else []
  let e2 := if children < 0 then ["Anzahl Kinder muss eine positive Zahl sein"] else []
  let e3 := if 10 < totalGuests then ["Maximal 10 Gäste pro Buchung möglich"] else []
  ⟨e1 ++ e2 ++ e3, adults, children, totalGuests⟩

/-! ## Shared lemmas -/

/-- Arithmetic of `utils.nextWeekday`: the result is strictly after the
start, at most 7 days ahead, and falls on the requested weekday. -/
theorem nextWeekdayRd_props (rd w : Nat) (h : w < 7) :
    rd < nextWeekdayRd rd w ∧ nextWeekdayRd rd w ≤ rd + 7 ∧
      nextWeekdayRd rd w % 7 = w := by
  simp only [nextWeekdayRd, wdDelta]
  split <;> omega

/-- `utils.coerceInt` never returns a value below a nonnegative default. -/
theorem coerceInt_nonneg (v : Option String) (d : Int) (h : 0 ≤ d) :
    0 ≤ coerceInt v d := by
  unfold coerceInt
  cases v with
  | none => exact h
  | some s =>
    dsimp only
    split
    · exact h
    · cases jsParseInt (trimL s.data) with
      | none => exact h
      | some n => simp

/-! ## Claims -/

/-- C1: for the utterance `"Ich möchte vom 22.10. bis 24.10. für 2 Erwachsene
und 1 Kind buchen"` the spec expects `check_in = "2025-10-22"`,
`check_out = "2025-10-24"`, `adults = 2`, `children = 1`; the code instead
returns `check_in = check_out = null` (for every timezone and current
instant, hence for current year 2025 in particular), because
`extractWithRules` rebuilds the year-less candidates as `"22.10."` /
`"24.10."` with a trailing dot, which its own anchored `parseDateAny`
patterns and the native `Date` fallback both reject.  The guest counts are
extracted correctly. -/
theorem c1_extract_scenario_dates_null :
    ∀ tz nowMs : Int,
      extractWithRules tz nowMs
          "Ich möchte vom 22.10. bis 24.10. für 2 Erwachsene und 1 Kind buchen" =
        ⟨none, none, 2, 1⟩ ∧
      parseDateAny tz nowMs "22.10." = none ∧
      parseDateAny tz nowMs "24.10." = none :=
  fun _ _ => ⟨rfl, rfl, rfl⟩

/-- C2: the claim states that `"übermorgen"` (and `"uebermorgen"`) parse to
base date + 2 days.  In `parseDateSmart` the relative-day loop tests
`s.includes(key)` in `Map` insertion order, and the normalized forms
(`"ubermorgen"` resp. `"übermorgen"`) contain the earlier key `"morgen"` as a
substring, so both return base + 1 day; `"heute"` and `"morgen"` behave as
claimed.  The `normalizeDate` variant of part_005, whose relative-day tests
are token-bounded, does return base + 2.  The final conjunct evaluates the
failing input at a concrete base. -/
theorem c2_uebermorgen_plus_one :
    ∀ base : Ymd,
      (parseDateSmart "übermorgen" "Anreise" base).date = some (ymdOfRd (rdOf base + 1)) ∧
      (parseDateSmart "uebermorgen" "Anreise" base).date = some (ymdOfRd (rdOf base + 1)) ∧
      (parseDateSmart "heute" "Anreise" base).date = some (ymdOfRd (rdOf base)) ∧
      (parseDateSmart "morgen" "Anreise" base).date = some (ymdOfRd (rdOf base + 1)) ∧
      normalizeDate005Rel "übermorgen" base = some (ymdOfRd (rdOf base + 2)) ∧
      (parseDateSmart "übermorgen" "Anreise" ⟨2025, 10, 11⟩).date = some "2025-10-12" :=
  fun _ => ⟨rfl, rfl, rfl, rfl, rfl, rfl⟩

/-- C3: the quoted scenario (`check_in = 2025-10-20`, `check_out =
2025-10-22`, `Vollpension`, no add-on → `total_primary = 236.00`, i.e. 23600 cents) holds in
both quote variants, and `"halbpension"`/`"vollpension"` price via their
table entries; but the part_002 variant computes the board surcharge with
`boardRates.get(key) || 8`, so the 0-valued entry for `"ohne verpflegung"`
falls to the breakfast default 8 instead of 0 (the part_005 variant uses
`?? 8` and keeps the 0).  In part_002 `"Frühstück"` also misses its own
table entry (normalization strips the umlauts) and only accidentally still
prices at 8. -/
theorem c3_quote_board_surcharge :
    ∀ tz : Int,
      quote002 tz (some "2025-10-20") (some "2025-10-22") "Vollpension" false none none =
        some { total_eur_cents := 23600, total_try := 11328, nights := 2,
               basePerNight := 90, boardAdd := 28, clubCareAdd := 0,
               board := "vollpension", adults := 2, children := 0 } ∧
      quote005 tz (some "2025-10-20") (some "2025-10-22") "Vollpension" false none none =
        some { total_eur_cents := 23600, total_try := 11328, nights := 2,
               basePerNight := 90, boardAdd := 28, clubCareAdd := 0,
               board := "Vollpension", adults := 2, children := 0 } ∧
      tblGet boardRatesTable "ohne verpflegung" = some 0 ∧
      (quote002 tz (some "2025-10-20") (some "2025-10-22") "ohne Verpflegung" false
          none none).map (·.boardAdd) = some 8 ∧
      (quote005 tz (some "2025-10-20") (some "2025-10-22") "ohne verpflegung" false
          none none).map (·.boardAdd) = some 0 ∧
      (quote002 tz (some "2025-10-20") (some "2025-10-22") "Halbpension" false
          none none).map (·.boardAdd) = some 18 ∧
      (quote002 tz (some "2025-10-20") (some "2025-10-22") "Frühstück" false
          none none).map (·.boardAdd) = some 8 :=
  fun _ => ⟨rfl, rfl, rfl, rfl, rfl, rfl, rfl⟩

/-- C6: the claim requires `"1 Nacht"` for `nights = 1` and `"2 Nächte"`
(umlaut) for `nights = 2` in every spoken availability string.  The
`computeCheckAvailability` template of `src/server.js` satisfies it; the
part_002 tool route always says `"Nächte"` (giving `"Für 1 Nächte …"`), and
the `src/src/server.js` route appends a bare `"e"` to `"Nacht"` (giving the
umlaut-less `"Für 2 Nachte …"`). -/
theorem c6_spoken_night_pluralization :
    spokenAvail002 1 "20. Oktober 2025" "21. Oktober 2025" =
      "Für 1 Nächte vom 20. Oktober 2025 bis 21. Oktober 2025 haben wir passende Unterkünfte verfügbar." ∧
    spokenAvailSrcSrc 2 "20. Oktober 2025" "22. Oktober 2025" =
      "Für 2 Nachte vom 20. Oktober 2025 bis 22. Oktober 2025 haben wir passende Unterkünfte verfügbar." ∧
    spokenAvailSmart 1 "A" "B" 3 2 =
      "Für 1 Nacht vom A bis B haben wir 3 Apartments für 2 Gäste verfügbar." ∧
    spokenAvailSmart 2 "A" "B" 3 2 =
      "Für 2 Nächte vom A bis B haben wir 3 Apartments für 2 Gäste verfügbar." :=
  ⟨rfl, rfl, rfl, rfl⟩

/-- C9: `utils.nightsBetween` gives 2 for `("2025-10-20", "2025-10-22")`
(in every timezone — ISO inputs denote UTC midnights), 0 on equal inputs
(for every string, even unparseable ones), 0 whenever the parsed check-out
instant does not lie after the parsed check-in instant (reversed order), and
is never negative. -/
theorem c9_nightsBetween_props (tz : Int) (s a b : String) (ma mb : Int)
    (ha : jsNewDateMs tz a = some ma) (hb : jsNewDateMs tz b = some mb) :
    nightsBetween tz "2025-10-20" "2025-10-22" = 2 ∧
    nightsBetween tz s s = 0 ∧
    0 ≤ nightsBetween tz a b ∧
    (mb ≤ ma → nightsBetween tz a b = 0) := by
  refine ⟨rfl, ?_, ?_, ?_⟩
  · unfold nightsBetween
    cases h : jsNewDateMs tz s with
    | none => rfl
    | some m => simp only [h, ceilDayDiv]; omega
  · unfold nightsBetween
    rw [ha, hb]
    exact le_max_left 0 _
  · intro hle
    unfold nightsBetween
    rw [ha, hb]
    simp only [ceilDayDiv]
    omega

/-- Closed witness for `c9_nightsBetween_props` at a concrete reversed pair
(check-out 2025-10-20 before check-in 2025-10-22, timezone UTC). -/
theorem c9_nightsBetween_props_witness :
    nightsBetween 0 "2025-10-20" "2025-10-22" = 2 ∧
    nightsBetween 0 "x" "x" = 0 ∧
    0 ≤ nightsBetween 0 "2025-10-22" "2025-10-20" ∧
    ((1760918400000 : Int) ≤ 1761091200000 → nightsBetween 0 "2025-10-22" "2025-10-20" = 0) :=
  c9_nightsBetween_props 0 "x" "2025-10-22" "2025-10-20" 1761091200000 1760918400000
    rfl rfl

/-- C7 counterexample: the claim states extraction never returns
`adults = 0`, but for the utterance `"0 Erwachsene"` the adults regex
captures `"0"` and `coerceInt("0", 1)` keeps it (`Math.max(0, 0) = 0`), so
`extractWithRules` returns `adults = 0`. -/
theorem c7_counterexample_zero_adults :
    extractWithRules 0 0 "0 Erwachsene" = ⟨none, none, 0, 0⟩ ∧
    ¬ (1 ≤ (extractWithRules 0 0 "0 Erwachsene").adults) :=
  ⟨rfl, by decide⟩

set_option maxHeartbeats 2000000 in
/-- C7 amended: the extracted guest counts are never negative (the
`Math.max(0, ·)` clamp in `coerceInt`), and they default to `adults = 1` /
`children = 0` when the respective count pattern is absent; however an
explicitly uttered count of `0` adults is returned as 0, so `adults ≥ 1`
does not hold for extraction.  The `validateBookingRequest` path of
`src/server.js` does enforce the claimed invariant: whenever it reports no
errors, `adults ≥ 1` and `children ≥ 0` (its `parseInt(x) || 1` coerces an
explicit 0 to 1 and negatives are rejected with an error). -/
theorem c7_guest_count_invariants (tz nowMs : Int) (text : String)
    (aIn cIn : Option String)
    (hval : (validateBookingRequest aIn cIn).errors = []) :
    0 ≤ (extractWithRules tz nowMs text).adults ∧
    0 ≤ (extractWithRules tz nowMs text).children ∧
    (countCapture adultKws (normalize002L text.data) = none →
      (extractWithRules tz nowMs text).adults = 1) ∧
    (countCapture childKws (normalize002L text.data) = none →
      (extractWithRules tz nowMs text).children = 0) ∧
    1 ≤ (validateBookingRequest aIn cIn).adults ∧
    0 ≤ (validateBookingRequest aIn cIn).children := by
  have hadults : (extractWithRules tz nowMs text).adults =
      (if text.data = [] then (1 : Int) else extractAdults (normalize002L text.data)) := by
    unfold extractWithRules
    split <;> rfl
  have hchildren : (extractWithRules tz nowMs text).children =
      (if text.data = [] then (0 : Int) else extractChildren (normalize002L text.data)) := by
    unfold extractWithRules
    split <;> rfl
  refine ⟨?_, ?_, ?_, ?_, ?_, ?_⟩
  · rw [hadults]
    split
    · omega
    · unfold extractAdults
      cases h : countCapture adultKws (normalize002L text.data) with
      | none => decide
      | some ds => exact coerceInt_nonneg _ _ (by omega)
  · rw [hchildren]
    split
    · omega
    · unfold extractChildren
      cases h : countCapture childKws (normalize002L text.data) with
      | none => decide
      | some ds => exact coerceInt_nonneg _ _ (by omega)
  · intro hnone
    rw [hadults]
    split
    · rfl
    · unfold extractAdults
      rw [hnone]
  · intro hnone
    rw [hchildren]
    split
    · rfl
    · unfold extractChildren
      rw [hnone]
  · unfold validateBookingRequest at hval ⊢
    dsimp only at hval ⊢
    split_ifs at hval with h1 h2 h3 <;> simp_all
  · unfold validateBookingRequest at hval ⊢
    dsimp only at hval ⊢
    split_ifs at hval with h1 h2 h3 <;> simp_all

/-- Closed witness for `c7_guest_count_invariants` at a concrete utterance
and a concrete validated body. -/
theorem c7_guest_count_invariants_witness :
    0 ≤ (extractWithRules 0 0 "zwei Personen bitte").adults ∧
    0 ≤ (extractWithRules 0 0 "zwei Personen bitte").children ∧
    (countCapture adultKws (normalize002L "zwei Personen bitte".data) = none →
      (extractWithRules 0 0 "zwei Personen bitte").adults = 1) ∧
    (countCapture childKws (normalize002L "zwei Personen bitte".data) = none →
      (extractWithRules 0 0 "zwei Personen bitte").children = 0) ∧
    1 ≤ (validateBookingRequest (some "0") (some "2")).adults ∧
    0 ≤ (validateBookingRequest (some "0") (some "2")).children :=
  c7_guest_count_invariants 0 0 "zwei Personen bitte" (some "0") (some "2") rfl

/-- C5 counterexample: the claim states that every year-less European date
whose same-year reading lies before the base date is rolled forward and
tagged; for `"29.2"` with base date 2024-06-01 the same-year reading
2024-02-29 is valid and in the past, but 2025-02-29 is not a valid date, so
`parseDateSmart` returns the past date untagged with
`needs_confirmation = false`. -/
theorem c5_counterexample_feb29 :
    parseDateSmart "29.2" "Anreise" ⟨2024, 6, 1⟩ =
      { ok := true, date := some "2024-02-29", reason := none,
        needs_confirmation := false, notes := [] } :=
  rfl

/-- C5 amended: parsing `"15.03"` against base date 2025-06-01 yields
`"2026-03-15"` with `needs_confirmation = true` and note
`"year_rolled_forward"`; and in general, for every year-less European date
whose same-year reading is a valid date lying strictly before the base date,
the year is rolled forward and tagged **provided the rolled-forward date is
itself a valid calendar date** (the Feb-29 case above is the exception the
original claim misses). -/
theorem c5_year_rollover :
    parseDateSmart "15.03" "Anreise" ⟨2025, 6, 1⟩ =
      { ok := true, date := some "2026-03-15", reason := none,
        needs_confirmation := true, notes := ["year_rolled_forward"] } ∧
    ∀ (dds mds : List Char) (base : Ymd),
      isValidYmd base.y (digitsVal mds) (digitsVal dds) = true →
      jsStrLt (ymdStr ⟨base.y, digitsVal mds, digitsVal dds⟩) (ymdStr base) = true →
      isValidYmd (base.y + 1) (digitsVal mds) (digitsVal dds) = true →
      euroBranchSmart dds mds none base =
        some { ok := true,
               date := some (ymdStr ⟨base.y + 1, digitsVal mds, digitsVal dds⟩),
               needs_confirmation := true, notes := ["year_rolled_forward"] } := by
  refine ⟨rfl, ?_⟩
  intro dds mds base h1 h2 h3
  unfold euroBranchSmart
  simp only [h1, h2, h3, if_true, and_self, true_and, if_pos]

/-- Closed witness for `c5_year_rollover` at the concrete input `"15.03"`
(day digits `15`, month digits `03`), base 2025-06-01. -/
theorem c5_year_rollover_witness :
    euroBranchSmart ['1', '5'] ['0', '3'] none ⟨2025, 6, 1⟩ =
      some { ok := true,
             date := some (ymdStr ⟨(2025 : Nat) + 1, digitsVal ['0', '3'], digitsVal ['1', '5']⟩),
             needs_confirmation := true, notes := ["year_rolled_forward"] } :=
  c5_year_rollover.2 ['1', '5'] ['0', '3'] ⟨2025, 6, 1⟩ rfl rfl rfl

/-- C4 counterexample: the claim lists `"nächsten <weekday>"` among the
recognized references, but `normalizeText` strips the umlaut
(`nächsten → nachsten`) while the weekday regex requires the literal
`nächsten`, so the native-umlaut phrase does not parse at all (every later
branch also fails). -/
theorem c4_counterexample_native_umlaut :
    parseDateSmart "nächsten Montag" "Anreise" ⟨2025, 10, 11⟩ =
      { ok := false, date := none,
        reason := some "Anreise Format nicht erkannt: \"nächsten Montag\". Bitte z.B. \"22.10.2025\" oder \"morgen\"",
        needs_confirmation := false, notes := [] } :=
  rfl

/-- Reduction of `parseDateSmart` for an input whose normalized form is
classified as a weekday reference. -/
theorem parseDateSmart_wkday (raw ty : String) (base : Ymd) (w : Nat)
    (hne : raw.data ≠ []) (h : earlyClassify (normalizeText raw) = .wkday w) :
    parseDateSmart raw ty base =
      { ok := true, date := some (ymdOfRd (nextWeekdayRd (rdOf base) w)),
        needs_confirmation := true, notes := ["weekday_inferred"] } := by
  unfold parseDateSmart
  rw [if_neg hne]
  simp only [h]

/-- The weekday phrase forms of the amended claim: the bare weekday token
and the prefixes `am` / `kommenden` / `naechsten` (the last in ASCII-folded
spelling — normalization turns it into the literal `nächsten` the regex
expects; the native-umlaut spelling is the counterexample above). -/
def c4Forms : List String := ["", "am ", "kommenden ", "naechsten "]

/-- Batch verification that every weekday key of the table, in each of the
four phrase forms, is nonempty, classifies as that weekday, and has a
weekday number below 7. -/
theorem c4_forms_classify :
    (c4Forms.all fun pre => weekdaysDE.all fun p =>
      decide ((pre ++ p.1).data ≠ []) &&
      decide (earlyClassify (normalizeText (pre ++ p.1)) = .wkday p.2) &&
      decide (p.2 < 7)) = true := by decide

/-- C4 amended: for every base date, every weekday key of the table and each
phrase form (bare token, `"am <wd>"`, `"kommenden <wd>"`, ASCII-folded
`"naechsten <wd>"`), the parse succeeds with `needs_confirmation = true` and
note `"weekday_inferred"`, and the resolved day is strictly after the base
date, at most 7 days ahead, and falls on the requested weekday number
(rata-die day mod 7, 0 = Sunday).  The original claim additionally asserted
this for the native-umlaut `"nächsten <wd>"` form, which fails to parse (see
the counterexample). -/
theorem c4_weekday_resolution (base : Ymd) (p : String × Nat)
    (hp : p ∈ weekdaysDE) (pre : String) (hpre : pre ∈ c4Forms) :
    parseDateSmart (pre ++ p.1) "Anreise" base =
      { ok := true, date := some (ymdOfRd (nextWeekdayRd (rdOf base) p.2)),
        needs_confirmation := true, notes := ["weekday_inferred"] } ∧
    rdOf base < nextWeekdayRd (rdOf base) p.2 ∧
    nextWeekdayRd (rdOf base) p.2 ≤ rdOf base + 7 ∧
    nextWeekdayRd (rdOf base) p.2 % 7 = p.2 := by
  have hall := c4_forms_classify
  rw [List.all_eq_true] at hall
  have h1 := hall pre hpre
  rw [List.all_eq_true] at h1
  have h2 := h1 p hp
  simp only [Bool.and_eq_true, decide_eq_true_eq] at h2
  obtain ⟨⟨hne, hcls⟩, hw7⟩ := h2
  exact ⟨parseDateSmart_wkday _ _ _ _ hne hcls, nextWeekdayRd_props _ _ hw7⟩

/-- Closed witness for `c4_weekday_resolution`: `"am freitag"` at base
2025-10-11 (a Saturday). -/
theorem c4_weekday_resolution_witness :
    parseDateSmart ("am " ++ "freitag") "Anreise" ⟨2025, 10, 11⟩ =
      { ok := true,
        date := some (ymdOfRd (nextWeekdayRd (rdOf ⟨2025, 10, 11⟩) 5)),
        needs_confirmation := true, notes := ["weekday_inferred"] } ∧
    rdOf ⟨2025, 10, 11⟩ < nextWeekdayRd (rdOf ⟨2025, 10, 11⟩) 5 ∧
    nextWeekdayRd (rdOf ⟨2025, 10, 11⟩) 5 ≤ rdOf ⟨2025, 10, 11⟩ + 7 ∧
    nextWeekdayRd (rdOf ⟨2025, 10, 11⟩) 5 % 7 = 5 :=
  c4_weekday_resolution ⟨2025, 10, 11⟩ ("freitag", 5) (by decide) "am " (by decide)

/-- C10: `utils.parseDateAny` builds dotted/slashed dates with
`new Date(year, mo - 1, d)` (local midnight) and renders them with
`toISOString().slice(0, 10)` (UTC), so the result depends on the process
timezone: for every positive UTC offset the fully specified input
`"22.10.2025"` parses to the preceding calendar day `"2025-10-21"`, and
exactly in UTC or negative-offset timezones it parses to `"2025-10-22"`.
The offset `tz` is in minutes east of UTC, bounded by a day in magnitude. -/
theorem c10_parseDateAny_timezone (tz nowMs : Int) :
    (0 < tz → tz < 1440 → parseDateAny tz nowMs "22.10.2025" = some "2025-10-21") ∧
    (-1440 < tz → tz ≤ 0 → parseDateAny tz nowMs "22.10.2025" = some "2025-10-22") := by
  have hshape : parseDateAny tz nowMs "22.10.2025" =
      some (toIsoSlice (localMidnightMs tz (jsMakeDayRd 2025 10 22))) := rfl
  have hrd : jsMakeDayRd 2025 10 22 = 739546 := rfl
  have hms : localMidnightMs tz 739546 = 20383 * 86400000 - tz * 60000 := by
    unfold localMidnightMs unixDayOfRd
    norm_num
  constructor
  · intro h1 h2
    rw [hshape, hrd, hms]
    have hdiv : (20383 * 86400000 - tz * 60000) / 86400000 = 20382 := by omega
    unfold toIsoSlice utcRdOfMs
    rw [hdiv]
    rfl
  · intro h1 h2
    rw [hshape, hrd, hms]
    have hdiv : (20383 * 86400000 - tz * 60000) / 86400000 = 20383 := by omega
    unfold toIsoSlice utcRdOfMs
    rw [hdiv]
    rfl

/-- Closed witness for `c10_parseDateAny_timezone`: offsets +120 (e.g.
Berlin summer time) and 0 (UTC). -/
theorem c10_parseDateAny_timezone_witness :
    parseDateAny 120 0 "22.10.2025" = some "2025-10-21" ∧
    parseDateAny 0 0 "22.10.2025" = some "2025-10-22" :=
  ⟨(c10_parseDateAny_timezone 120 0).1 (by norm_num) (by norm_num),
   (c10_parseDateAny_timezone 0 0).2 (by norm_num) (by norm_num)⟩
